import Mathlib

/-!
Shallow embedding of the LangGraph chatbot repository
(`langgraph_database_backend.py`, `streamlit_frontend_database.py`).

External effects (the Gemini model call, HTTP requests, `eval`, the SQLite
checkpoint store, CPython float parsing and formatting) are passed in as
explicit oracle arguments; everything the repository computes itself is
translated directly.  Python strings are modelled through their character
lists: `splitChar` models `str.split(sep)` for a one-character separator,
`pyStrip` models `str.strip()`, `pyRemove c` models `str.replace(c, "")`,
`pyIsDigit` models `str.isdigit()` and `pyUpper` models `str.upper()`
(ASCII case mapping).
-/

namespace LangGraphChatbot

/-- Models `str.split(sep)` for a single-character separator: splits at every
occurrence of `sep`; the empty string yields `[""]`, as in Python. -/
def splitChar (sep : Char) (s : String) : List String :=
  (s.toList.foldr
    (fun c acc =>
      match acc with
      | [] => [[c]]
      | h :: t => if c = sep then [] :: h :: t else (c :: h) :: t)
    [[]]).map (fun cs => ⟨cs⟩)

/-- Models `str.strip()`: drops leading and trailing whitespace. -/
def pyStrip (s : String) : String :=
  ⟨((s.toList.dropWhile Char.isWhitespace).reverse.dropWhile Char.isWhitespace).reverse⟩

/-- Models `str.replace(c, "")` for a one-character pattern: every occurrence
of `c` is removed. -/
def pyRemove (c : Char) (s : String) : String :=
  ⟨s.toList.filter (fun ch => ch ≠ c)⟩

/-- Models `str.isdigit()`: true iff the string is non-empty and every
character is a digit. -/
def pyIsDigit (s : String) : Bool :=
  !s.toList.isEmpty && s.toList.all Char.isDigit

/-- Models `str.upper()` (ASCII case mapping). -/
def pyUpper (s : String) : String :=
  ⟨s.toList.map Char.toUpper⟩

/-! ## Messages (the `langchain_core` message classes used by the backend) -/

/-- One tool invocation requested by the model: `{name, args, id}`.
Arguments are kept as their JSON text. -/
structure ToolCall where
  name : String
  args : String
  id : String
deriving DecidableEq, Repr

/-- A conversation message.  `human` is `HumanMessage`, `ai` is `AIMessage`
(the only class carrying a `tool_calls` attribute), `toolMsg` is
`ToolMessage` with its `tool_call_id`.  Every message carries the `id`
LangGraph uses for its merge rule. -/
inductive Message where
  | human (id content : String)
  | ai (id content : String) (tool_calls : List ToolCall)
  | toolMsg (id content tool_call_id : String)
deriving DecidableEq, Repr

/-- The message id, used by the `add_messages` merge rule. -/
def Message.id : Message → String
  | .human i _ => i
  | .ai i _ _ => i
  | .toolMsg i _ _ => i

/-- LangGraph's `add_messages` upsert of a single message: a message whose id
already occurs replaces the old occurrence in place, otherwise it is
appended. -/
def upsertMessage (merged : List Message) (m : Message) : List Message :=
  if (merged.map Message.id).contains m.id then
    merged.map (fun x => if x.id = m.id then m else x)
  else merged ++ [m]

/-- The `add_messages` reducer annotated on `AgentState.messages`
(`messages: Annotated[list[BaseMessage], add_messages]`): each incoming
message is upserted by id into the existing list. -/
def add_messages (left right : List Message) : List Message :=
  right.foldl upsertMessage left

/-! ## The agent graph (`StateGraph` built at lines 314-334) -/

/-- Graph nodes: `START`, the `"agent"` node, the `"tools"` node and `END`. -/
inductive Node where
  | START
  | agent
  | tools
  | END
deriving DecidableEq, BEq, Repr

/-- The unconditional edges: `graph.add_edge(START, "agent")` and
`graph.add_edge("tools", "agent")`. -/
def graph_edges : List (Node × Node) :=
  [(Node.START, Node.agent), (Node.tools, Node.agent)]

/-- `should_continue` (lines 294-303): inspects the last message of the
state; if it has a `tool_calls` attribute (only `AIMessage` does) and the
list is non-empty, returns `"tools"`, otherwise `"end"`.  `none` models the
`IndexError` Python would raise on an empty message list. -/
def should_continue (messages : List Message) : Option String :=
  match messages.getLast? with
  | none => none
  | some last =>
    match last with
    | .ai _ _ tcs => if tcs ≠ [] then some "tools" else some "end"
    | _ => some "end"

/-- The mapping passed to `graph.add_conditional_edges` (lines 323-330):
`{"tools": "tools", "end": END}`. -/
def conditional_edge_map (route : String) : Option Node :=
  [("tools", Node.tools), ("end", Node.END)].lookup route

/-- The node the graph moves to after the `"agent"` node: `should_continue`
composed with the conditional-edge mapping. -/
def routeTarget (messages : List Message) : Option Node :=
  (should_continue messages).bind conditional_edge_map

/-- One scripted response of the model client: the `AIMessage` returned by
`llm_with_tools.invoke`, as id, text content and requested tool calls. -/
structure ModelTurn where
  id : String
  content : String
  tool_calls : List ToolCall
deriving DecidableEq, Repr

/-- The `AIMessage` a model turn contributes to the state. -/
def ModelTurn.toMessage (t : ModelTurn) : Message :=
  .ai t.id t.content t.tool_calls

/-- `agent_node` (lines 288-292): invokes the model (here: the scripted
response `t`) and returns the one-message update `{"messages": [response]}`. -/
def agent_node (t : ModelTurn) : List Message :=
  [t.toMessage]

/-- `ToolNode(tools)` (line 306): reads the `tool_calls` of the last
(assistant) message and produces one `ToolMessage` per invocation, in
request order, linked by `tool_call_id`.  `execTool` is the tool executor;
it yields the fresh message id and the tool output text. -/
def tool_node (execTool : ToolCall → String × String) (messages : List Message) :
    List Message :=
  match messages.getLast? with
  | some (.ai _ _ tcs) =>
      tcs.map (fun tc => Message.toolMsg (execTool tc).1 (execTool tc).2 tc.id)
  | _ => []

/-- One `"tools"` super-step: run the tool node, merge its messages into the
state, and follow the fixed edge out of `"tools"` (line 331). -/
def toolsStep (execTool : ToolCall → String × String) (messages : List Message) :
    Option Node × List Message :=
  (graph_edges.lookup Node.tools, add_messages messages (tool_node execTool messages))

/-- Execution of one turn of the compiled graph, consuming the scripted model
responses in order.  Returns the list of checkpointed snapshots (one per
executed node, as the `SqliteSaver` persists the state after every
super-step) and, when the turn reaches `END`, the final message list.
`none` as the second component means the model script was exhausted while
the graph still wanted another model call. -/
def runLoop (execTool : ToolCall → String × String) (messages : List Message) :
    List ModelTurn → List (List Message) × Option (List Message)
  | [] => ([], none)
  | t :: ts =>
      let afterAgent := add_messages messages (agent_node t)
      match routeTarget afterAgent with
      | some Node.tools =>
          let afterTools := (toolsStep execTool afterAgent).2
          let rest := runLoop execTool afterTools ts
          (afterAgent :: afterTools :: rest.1, rest.2)
      | some Node.END => ([afterAgent], some afterAgent)
      | _ => ([afterAgent], none)

/-- The ids of an update are fresh for the current state: pairwise distinct
and absent from the state.  This is how every real run behaves, since model
and tool messages get fresh UUIDs. -/
def freshDeltaB (cur delta : List Message) : Bool :=
  decide ((delta.map Message.id).Nodup) &&
  delta.all (fun m => !((cur.map Message.id).contains m.id))

/-- Every update merged during `runLoop` carries fresh message ids. -/
def freshRunB (execTool : ToolCall → String × String) (messages : List Message) :
    List ModelTurn → Bool
  | [] => true
  | t :: ts =>
      freshDeltaB messages (agent_node t) &&
      (let afterAgent := add_messages messages (agent_node t)
       match routeTarget afterAgent with
       | some Node.tools =>
           let delta := tool_node execTool afterAgent
           freshDeltaB afterAgent delta &&
           freshRunB execTool (add_messages afterAgent delta) ts
       | _ => true)

/-! ## Tools (lines 19-268)

Each tool keeps its Python name.  The fallible external work inside the
`try` block (HTTP request, `eval`, `exec`, CPython float parsing) is an
`Except String` oracle whose `error` case carries `str(e)` of the raised
exception; the `except` branch of each tool is translated verbatim. -/

/-- The registered tool names (the `tools` list, lines 255-268). -/
inductive ToolName where
  | search_wikipedia
  | web_scraper
  | calculate
  | get_current_time
  | python_code_executor
  | analyze_json
  | file_analyzer
  | data_processor
  | create_chart_data
  | api_caller
  | text_analyzer
  | regex_matcher
deriving DecidableEq, Repr

/-- The `except` branch of each tool (the error string it returns when its
internal work raises with message `e`).  `get_current_time` has no
`try`/`except` and no fallible internal work, hence `none`. -/
def toolFaultReply : ToolName → String → Option String
  | .search_wikipedia, e => some ("Wikipedia search failed: " ++ e)
  | .web_scraper, e => some ("Scraping failed: " ++ e)
  | .calculate, e => some ("Calculation error: " ++ e)
  | .get_current_time, _ => none
  | .python_code_executor, e => some ("Execution error: " ++ e)
  | .analyze_json, e => some ("JSON parsing failed: " ++ e)
  | .file_analyzer, e => some ("File analysis failed: " ++ e)
  | .data_processor, e => some ("Data processing failed: " ++ e)
  | .create_chart_data, e => some ("Chart generation failed: " ++ e)
  | .api_caller, e => some ("API call failed: " ++ e)
  | .text_analyzer, e => some ("Text analysis failed: " ++ e)
  | .regex_matcher, e => some ("Regex matching failed: " ++ e)

/-- Models `str.split("  ")` (a two-space separator), used by
`web_scraper`'s chunking: splits at each non-overlapping occurrence of two
consecutive spaces, scanning left to right. -/
def splitTwoSpaces : List Char → List Char → List (List Char)
  | [], cur => [cur.reverse]
  | [c], cur => [(c :: cur).reverse]
  | c1 :: c2 :: rest, cur =>
      if c1 = ' ' ∧ c2 = ' ' then cur.reverse :: splitTwoSpaces rest []
      else splitTwoSpaces (c2 :: rest) (c1 :: cur)

/-- `web_scraper` (lines 19-42).  `fetchText` is the oracle for
`requests.get` plus `soup.get_text()`; the line splitting, stripping,
chunking on double spaces, joining and the 2000-character truncation are
translated from lines 35-40. -/
def web_scraper (url : String) (fetchText : String → Except String String) : String :=
  match fetchText url with
  | .ok raw =>
      let lines := (splitChar '\n' raw).map pyStrip
      let chunks :=
        (lines.map (fun line =>
          (splitTwoSpaces line.toList []).map (fun cs => pyStrip ⟨cs⟩))).flatten
      let text := String.intercalate " " (chunks.filter (fun c => c ≠ ""))
      if text.length > 2000 then text.take 2000 ++ "..." else text
  | .error e => "Scraping failed: " ++ e

/-- The fields of the Wikipedia REST summary response that
`search_wikipedia` reads: `data['title']`, `data['extract']` (possibly
absent) and `data['content_urls']['desktop']['page']`. -/
structure WikiSummary where
  title : String
  extract : Option String
  page_url : String

/-- `search_wikipedia` (lines 44-57).  The request URL is built from the
query exactly as in line 48; `fetch` is the oracle for `requests.get` plus
`response.json()`. -/
def search_wikipedia (query : String) (fetch : String → Except String WikiSummary) :
    String :=
  let url := "https://en.wikipedia.org/api/rest_v1/page/summary/" ++
    String.intercalate "_" (splitChar ' ' query)
  match fetch url with
  | .ok data =>
      match data.extract with
      | some ext =>
          "Title: " ++ data.title ++ "\n\n" ++ ext ++ "\n\nRead more: " ++ data.page_url
      | none => "No Wikipedia article found for this query."
  | .error e => "Wikipedia search failed: " ++ e

/-- `calculate` (lines 207-219).  `evalResult` is the oracle for Python
`eval` under the restricted namespace of lines 212-215, producing the
printed form of the value or the raised message. -/
def calculate (expression : String) (evalResult : Except String String) : String :=
  match evalResult with
  | .ok result => "Result: " ++ result
  | .error e => "Calculation error: " ++ e

/-- `get_current_time` (lines 221-225).  `now` is the oracle for
`datetime.now().strftime('%Y-%m-%d %H:%M:%S')`. -/
def get_current_time (now : String) : String :=
  "Current date and time: " ++ now

/-- `python_code_executor` (lines 227-252).  `execResult` is the oracle for
`exec` under the restricted builtins, producing the captured stdout; an
empty capture yields the fixed success message (line 250). -/
def python_code_executor (code : String) (execResult : Except String String) : String :=
  match execResult with
  | .ok output => if output ≠ "" then output else "Code executed successfully (no output)"
  | .error e => "Execution error: " ++ e

/-- `api_caller` (lines 153-163).  `httpGet` is the oracle for
`requests.get`, returning status code and body text.  The second component
of the result counts how many outbound requests were performed: the oracle
is consulted only in the `GET` branch. -/
def api_caller (url method : String) (httpGet : String → Except String (Int × String)) :
    String × Nat :=
  if pyUpper method = "GET" then
    match httpGet url with
    | .ok (status, text) =>
        ("Status: " ++ toString status ++ "\n\nResponse:\n" ++ text.take 1000, 1)
    | .error e => ("API call failed: " ++ e, 1)
  else
    ("Only GET method is supported for safety reasons.", 0)

/-- The numeric filter of the `sum` and `average` branches of
`data_processor` (lines 113, 117):
`x.replace('.','').replace('-','').isdigit()`. -/
def numericFilter (x : String) : Bool :=
  pyIsDigit (pyRemove '-' (pyRemove '.' x))

/-- `data_processor` (lines 100-129).  CPython float semantics are kept
outside the shallow embedding: `pyFloat` is the oracle for `float(x)`
(values modelled as rationals, `error` carries the `ValueError` message)
and `floatRepr` is the oracle for formatting a float into an f-string.
A `float` failure inside `sum`/`average` reaches the outer `except`
(line 128); inside `sort` it is caught by the inner `except` (line 109),
falling back to lexicographic sorting.  Python's `set` iteration order in
the `unique` branch is unspecified and modelled as first-occurrence
order. -/
def data_processor (pyFloat : String → Except String Rat) (floatRepr : Rat → String)
    (data operation : String) : String :=
  let items := (splitChar ',' data).map pyStrip
  if operation = "sort" then
    match items.mapM pyFloat with
    | .ok keys =>
        String.intercalate ", "
          (((items.zip keys).mergeSort (fun a b => decide (a.2 ≤ b.2))).map (fun p => p.1))
    | .error _ => String.intercalate ", " (items.mergeSort (fun a b => decide (a ≤ b)))
  else if operation = "sum" then
    match (items.filter numericFilter).mapM pyFloat with
    | .ok numbers => "Sum: " ++ floatRepr (numbers.foldl (· + ·) 0)
    | .error e => "Data processing failed: " ++ e
  else if operation = "average" then
    match (items.filter numericFilter).mapM pyFloat with
    | .ok numbers =>
        if numbers.isEmpty then "Average: 0"
        else "Average: " ++ floatRepr ((numbers.foldl (· + ·) 0) / (numbers.length : Rat))
    | .error e => "Data processing failed: " ++ e
  else if operation = "unique" then
    String.intercalate ", " items.dedup
  else if operation = "count" then
    "Count: " ++ toString items.length
  else
    "Supported operations: sort, sum, average, unique, count"

/-! ## Checkpoint store access (lines 310-349) and frontend persistence reads -/

/-- One checkpoint as seen through `checkpointer.list(None)`: the code reads
only `checkpoint.config.get('configurable', {}).get('thread_id')`, which may
be absent. -/
structure CheckpointRecord where
  thread_id : Option String
deriving DecidableEq, Repr

/-- The outcome of enumerating the checkpoint store: the records the
iterator yielded before completing or failing, and the exception message if
the enumeration raised after yielding them. -/
structure StoreListing where
  yielded : List CheckpointRecord
  fault : Option String
deriving DecidableEq, Repr

/-- `retrieve_all_threads` (lines 338-349): collects the thread ids of the
yielded checkpoints into a set and returns it as a list.  An exception
during enumeration is caught and printed, and the ids gathered so far are
returned; the fault never propagates.  Python's set order is unspecified
and modelled as first-occurrence order. -/
def retrieve_all_threads (listing : StoreListing) : List String :=
  (listing.yielded.filterMap (fun c => c.thread_id)).dedup

/-- `load_conversation` (frontend lines 46-53).  `getState` is the oracle
for `chatbot.get_state(...)` returning the persisted message list.  The
result pairs the UI error banners shown via `st.error` with the returned
message list: a persistence fault is caught, reported as a banner, and an
empty history is returned to the caller. -/
def load_conversation (getState : Except String (List Message)) :
    List String × List Message :=
  match getState with
  | .ok msgs => ([], msgs)
  | .error e => (["Error loading conversation: " ++ e], [])

/-! ## Frontend chat handling (frontend lines 355-480) -/

/-- One entry of `st.session_state['message_history']`: a dict with `role`
and `content`, plus the optional `tool_calls` (name and args pairs) and
`tool_result` keys added on tool-using turns (absent keys modelled as the
empty list and `none`). -/
structure UiMessage where
  role : String
  content : String
  tool_calls : List (String × String)
  tool_result : Option String
deriving DecidableEq, Repr

/-- What the streaming loop (frontend lines 428-452) accumulates on a
successful turn. -/
structure StreamOutcome where
  response_content : String
  tool_calls_made : List (String × String)
  tool_results : List String
deriving DecidableEq, Repr

/-- The assistant entry saved to the session history on success (frontend
lines 458-466). -/
def assistantEntry (r : StreamOutcome) : UiMessage :=
  { role := "assistant"
    content := r.response_content
    tool_calls := r.tool_calls_made
    tool_result :=
      if r.tool_results.isEmpty then none
      else some (String.intercalate "\n" r.tool_results) }

/-- The chat-input handler (frontend lines 397-480): the user message is
appended first; then the turn is streamed.  On success the accumulated
assistant entry is appended; on any uncaught exception the `except` branch
(lines 475-480) still appends a generic assistant failure message, keeping
the history structure consistent. -/
def chat_input_handler (history : List UiMessage) (user_input : String)
    (stream : Except String StreamOutcome) : List UiMessage :=
  let history1 := history ++ [⟨"user", user_input, [], none⟩]
  match stream with
  | .ok r => history1 ++ [assistantEntry r]
  | .error _ =>
      history1 ++
        [⟨"assistant", "Sorry, I encountered an error. Please try again.", [], none⟩]

/-- The regenerate button handler (frontend lines 381-384): truncates the
session history back to the position of the regenerated assistant message;
an explicit truncation, never an in-place edit. -/
def regenerate_handler (history : List UiMessage) (idx : Nat) : List UiMessage :=
  history.take idx

/-! ## Concrete inputs used by the witness theorems -/

/-- A concrete tool executor for witnesses: fresh ids, fixed output. -/
def wExec : ToolCall → String × String :=
  fun tc => ("tm-" ++ tc.id, "Result: 45")

/-- A concrete starting history for witnesses. -/
def wMsgs : List Message :=
  [Message.human "h1" "Calculate 15*3 using the calculator"]

/-- A concrete model script for witnesses: one tool-requesting turn, then a
plain reply. -/
def wTurns : List ModelTurn :=
  [⟨"a1", "", [⟨"calculate", "15*3", "c1"⟩]⟩, ⟨"a2", "The answer is 45", []⟩]

/-- A concrete state ending in a tool-requesting assistant message. -/
def c2Msgs : List Message :=
  [Message.ai "a1" "" [⟨"calculate", "15*3", "c1"⟩]]

/-! ## Theorems -/

theorem data_append (s t : String) : (s ++ t).data = s.data ++ t.data := by
  cases s; cases t; rfl

theorem append_left_ne_empty (s t : String) (h : s.data ≠ []) : s ++ t ≠ "" := by
  intro hc
  apply h
  have h2 : s.data ++ t.data = [] := by
    rw [← data_append, hc]
  exact (List.append_eq_nil.mp h2).1

theorem conditional_edge_map_tools : conditional_edge_map "tools" = some Node.tools := rfl

theorem conditional_edge_map_end : conditional_edge_map "end" = some Node.END := rfl

/-- The conditional route computed after the agent node, for a state whose
last message is an `AIMessage`. -/
theorem routeTarget_concat_ai (msgs : List Message) (i c : String)
    (tcs : List ToolCall) :
    routeTarget (msgs ++ [Message.ai i c tcs]) =
      if tcs = [] then some Node.END else some Node.tools := by
  unfold routeTarget should_continue
  rw [List.getLast?_concat]
  by_cases h : tcs = []
  · simp [h, conditional_edge_map_end]
  · simp [h, conditional_edge_map_tools]

/-- The `freshDeltaB` check unpacked. -/
theorem freshDeltaB_spec (cur delta : List Message) (h : freshDeltaB cur delta = true) :
    (delta.map Message.id).Nodup ∧
      ∀ m ∈ delta, Message.id m ∉ cur.map Message.id := by
  unfold freshDeltaB at h
  rw [Bool.and_eq_true] at h
  obtain ⟨h1, h2⟩ := h
  refine ⟨of_decide_eq_true h1, ?_⟩
  intro m hm
  have := List.all_eq_true.mp h2 m hm
  simpa using this

/-- On fresh message ids the `add_messages` reducer is a plain append. -/
theorem add_messages_fresh (cur delta : List Message)
    (hnodup : (delta.map Message.id).Nodup)
    (hfresh : ∀ m ∈ delta, Message.id m ∉ cur.map Message.id) :
    add_messages cur delta = cur ++ delta := by
  induction delta generalizing cur with
  | nil => simp [add_messages]
  | cons m rest ih =>
      have hm : Message.id m ∉ cur.map Message.id := hfresh m (List.mem_cons_self m rest)
      have hup : upsertMessage cur m = cur ++ [m] := by
        unfold upsertMessage
        rw [if_neg]
        simpa using hm
      have hnodup' : (rest.map Message.id).Nodup := by
        simpa using hnodup.of_cons
      have hmid : Message.id m ∉ rest.map Message.id := by
        intro hmem
        exact (List.nodup_cons.mp (by simpa using hnodup)).1 hmem
      have hfresh' : ∀ x ∈ rest, Message.id x ∉ (cur ++ [m]).map Message.id := by
        intro x hx
        rw [List.map_append, List.mem_append]
        rintro (hc | hc)
        · exact hfresh x (List.mem_cons_of_mem m hx) hc
        · simp only [List.map_cons, List.map_nil, List.mem_singleton] at hc
          exact hmid (hc ▸ List.mem_map_of_mem Message.id hx)
      calc add_messages cur (m :: rest)
          = add_messages (cur ++ [m]) rest := by
            simp [add_messages, hup]
        _ = (cur ++ [m]) ++ rest := ih (cur ++ [m]) hnodup' hfresh'
        _ = cur ++ (m :: rest) := by simp

/-- A fresh single-message update is appended. -/
theorem add_messages_single (cur : List Message) (m : Message)
    (h : Message.id m ∉ cur.map Message.id) :
    add_messages cur [m] = cur ++ [m] := by
  apply add_messages_fresh
  · simp
  · simpa using h

/-- `tool_node` on a state ending in an `AIMessage` produces one
`ToolMessage` per requested invocation, in request order. -/
theorem tool_node_concat (execTool : ToolCall → String × String)
    (msgs : List Message) (i c : String) (tcs : List ToolCall) :
    tool_node execTool (msgs ++ [Message.ai i c tcs]) =
      tcs.map (fun tc => Message.toolMsg (execTool tc).1 (execTool tc).2 tc.id) := by
  unfold tool_node
  rw [List.getLast?_concat]

/-- C1: after a model call, `should_continue` composed with the
conditional-edge mapping routes to the `"tools"` node exactly when the last
message is an assistant message carrying one or more tool invocations, and
routes to `END` otherwise. -/
theorem c1_branch_decision (messages : List Message) (m : Message)
    (h : messages.getLast? = some m) :
    (routeTarget messages = some Node.tools ↔
      ∃ i c tcs, m = Message.ai i c tcs ∧ tcs ≠ []) ∧
    (routeTarget messages = some Node.END ↔
      ¬ ∃ i c tcs, m = Message.ai i c tcs ∧ tcs ≠ []) := by
  unfold routeTarget should_continue
  rw [h]
  cases m with
  | ai i c tcs =>
      by_cases htc : tcs = []
      · subst htc
        simp [conditional_edge_map_end]
      · simp only [if_pos htc]
        constructor
        · simp [conditional_edge_map_tools]
          exact ⟨i, c, tcs, ⟨rfl, rfl, rfl⟩, htc⟩
        · simp [conditional_edge_map_tools]
          exact htc
  | human i c =>
      simp [conditional_edge_map_end]
  | toolMsg i c tid =>
      simp [conditional_edge_map_end]

/-- Witness for C1 at a concrete tool-requesting state. -/
theorem c1_branch_decision_witness :
    ([Message.ai "a1" "" [⟨"calculate", "15*3", "c1"⟩]].getLast? =
      some (Message.ai "a1" "" [⟨"calculate", "15*3", "c1"⟩])) ∧
    routeTarget [Message.ai "a1" "" [⟨"calculate", "15*3", "c1"⟩]] = some Node.tools := by
  refine ⟨rfl, ?_⟩
  exact (c1_branch_decision [Message.ai "a1" "" [⟨"calculate", "15*3", "c1"⟩]]
      (Message.ai "a1" "" [⟨"calculate", "15*3", "c1"⟩]) rfl).1.mpr
    ⟨"a1", "", [⟨"calculate", "15*3", "c1"⟩], rfl, by decide⟩

/-- C2: every registered tool converts an internal fault into a non-empty
error string instead of raising (its `except` branch, `toolFaultReply`;
shown concretely for `web_scraper` and `calculate` with a faulting
oracle), and the `"tools"` super-step appends the tool outputs as
tool-role messages, one per invocation in request order, and moves back to
the `"agent"` node, so the turn continues. -/
theorem c2_tool_fault_containment :
    (∀ t e out, toolFaultReply t e = some out → out ≠ "") ∧
    (∀ url e, web_scraper url (fun _ => Except.error e) = "Scraping failed: " ++ e) ∧
    (∀ expr e, calculate expr (Except.error e) = "Calculation error: " ++ e) ∧
    (∀ (execTool : ToolCall → String × String) (msgs : List Message) (i c : String)
        (tcs : List ToolCall),
      msgs.getLast? = some (Message.ai i c tcs) →
      freshDeltaB msgs (tool_node execTool msgs) = true →
      toolsStep execTool msgs =
        (some Node.agent,
          msgs ++ tcs.map (fun tc =>
            Message.toolMsg (execTool tc).1 (execTool tc).2 tc.id))) := by
  refine ⟨?_, fun url e => rfl, fun expr e => rfl, ?_⟩
  · intro t e out h
    cases t <;> simp [toolFaultReply] at h <;> subst h <;>
      exact append_left_ne_empty _ _ (by decide)
  · intro execTool msgs i c tcs hlast hfresh
    have htn : tool_node execTool msgs =
        tcs.map (fun tc => Message.toolMsg (execTool tc).1 (execTool tc).2 tc.id) := by
      unfold tool_node
      rw [hlast]
    rw [htn] at hfresh
    have hspec := freshDeltaB_spec msgs _ hfresh
    unfold toolsStep
    rw [htn, add_messages_fresh msgs _ hspec.1 hspec.2]
    rfl

/-- Witness for C2: the tools super-step on a concrete tool-requesting
state, with a concrete executor. -/
theorem c2_tool_fault_containment_witness :
    freshDeltaB c2Msgs (tool_node wExec c2Msgs) = true ∧
    toolsStep wExec c2Msgs =
      (some Node.agent,
        c2Msgs ++ ([⟨"calculate", "15*3", "c1"⟩] : List ToolCall).map (fun tc =>
          Message.toolMsg (wExec tc).1 (wExec tc).2 tc.id)) :=
  ⟨by decide,
    c2_tool_fault_containment.2.2.2 wExec c2Msgs "a1" "" [⟨"calculate", "15*3", "c1"⟩]
      rfl (by decide)⟩

/-- If the scripted model client contains a plain reply, the run reaches
`END` and its final state ends in exactly one plain assistant message. -/
theorem runLoop_reaches_plain (execTool : ToolCall → String × String)
    (turns : List ModelTurn) :
    ∀ msgs : List Message,
      freshRunB execTool msgs turns = true →
      (∃ t ∈ turns, t.tool_calls = []) →
      ∃ pre i c, (runLoop execTool msgs turns).2 = some (pre ++ [Message.ai i c []]) := by
  induction turns with
    | nil =>
        intro msgs _ hex
        simp at hex
    | cons t ts ih =>
        intro msgs hfresh hex
        simp only [freshRunB, Bool.and_eq_true] at hfresh
        obtain ⟨hf1, hf2⟩ := hfresh
        have hspec := freshDeltaB_spec msgs (agent_node t) hf1
        have hadd : add_messages msgs (agent_node t) = msgs ++ [t.toMessage] :=
          add_messages_fresh msgs _ hspec.1 hspec.2
        have hmsg : t.toMessage = Message.ai t.id t.content t.tool_calls := rfl
        by_cases htc : t.tool_calls = []
        · have hroute : routeTarget (add_messages msgs (agent_node t)) = some Node.END := by
            rw [hadd, hmsg, routeTarget_concat_ai, if_pos htc]
          refine ⟨msgs, t.id, t.content, ?_⟩
          simp only [runLoop, hroute]
          rw [hadd, hmsg, htc]
        · have hroute : routeTarget (add_messages msgs (agent_node t)) = some Node.tools := by
            rw [hadd, hmsg, routeTarget_concat_ai, if_neg htc]
          rw [hroute] at hf2
          simp only [Bool.and_eq_true] at hf2
          obtain ⟨hf2a, hf2b⟩ := hf2
          obtain ⟨t', ht', htc'⟩ := hex
          rcases List.mem_cons.mp ht' with rfl | hmem
          · exact absurd htc' htc
          · simp only [runLoop, hroute, toolsStep]
            exact ih _ hf2b ⟨t', hmem, htc'⟩

/-- C3: if the scripted model client produces a plain (tool-free) reply,
the turn run reaches `END` with a defined final state whose last appended
message is exactly one plain assistant message; and the `"tools"` node has
the fixed edge back to `"agent"`, so the cycle continues only while tools
keep being requested. -/
theorem c3_turn_termination :
    (∀ (execTool : ToolCall → String × String) (msgs : List Message)
        (turns : List ModelTurn),
      freshRunB execTool msgs turns = true →
      (∃ t ∈ turns, t.tool_calls = []) →
      ∃ pre i c, (runLoop execTool msgs turns).2 = some (pre ++ [Message.ai i c []])) ∧
    graph_edges.lookup Node.tools = some Node.agent :=
  ⟨fun execTool msgs turns h1 h2 => runLoop_reaches_plain execTool turns msgs h1 h2, rfl⟩

/-- Witness for C3 on a concrete two-turn script ending in a plain reply. -/
theorem c3_turn_termination_witness :
    freshRunB wExec wMsgs wTurns = true ∧
    ∃ pre i c, (runLoop wExec wMsgs wTurns).2 = some (pre ++ [Message.ai i c []]) :=
  ⟨by decide,
    c3_turn_termination.1 wExec wMsgs wTurns (by decide)
      ⟨⟨"a2", "The answer is 45", []⟩, by decide, rfl⟩⟩

/-- During a run with fresh message ids, every checkpointed snapshot extends
the previous one by appending. -/
theorem runLoop_checkpoints_chain (execTool : ToolCall → String × String)
    (turns : List ModelTurn) :
    ∀ msgs : List Message, freshRunB execTool msgs turns = true →
      List.Chain' (fun a b => a <+: b) (msgs :: (runLoop execTool msgs turns).1) := by
  induction turns with
  | nil =>
      intro msgs _
      simp [runLoop]
  | cons t ts ih =>
      intro msgs hfresh
      simp only [freshRunB, Bool.and_eq_true] at hfresh
      obtain ⟨hf1, hf2⟩ := hfresh
      have hspec := freshDeltaB_spec msgs (agent_node t) hf1
      have hadd : add_messages msgs (agent_node t) = msgs ++ [t.toMessage] :=
        add_messages_fresh msgs _ hspec.1 hspec.2
      have hmsg : t.toMessage = Message.ai t.id t.content t.tool_calls := rfl
      have hpre1 : msgs <+: add_messages msgs (agent_node t) := by
        rw [hadd]
        exact List.prefix_append msgs [t.toMessage]
      by_cases htc : t.tool_calls = []
      · have hroute : routeTarget (add_messages msgs (agent_node t)) = some Node.END := by
          rw [hadd, hmsg, routeTarget_concat_ai, if_pos htc]
        simp only [runLoop, hroute]
        simp [hpre1]
      · have hroute : routeTarget (add_messages msgs (agent_node t)) = some Node.tools := by
          rw [hadd, hmsg, routeTarget_concat_ai, if_neg htc]
        rw [hroute] at hf2
        simp only [Bool.and_eq_true] at hf2
        obtain ⟨hf2a, hf2b⟩ := hf2
        have hspec2 := freshDeltaB_spec _ _ hf2a
        have hadd2 : add_messages (add_messages msgs (agent_node t))
            (tool_node execTool (add_messages msgs (agent_node t))) =
            add_messages msgs (agent_node t) ++
              tool_node execTool (add_messages msgs (agent_node t)) :=
          add_messages_fresh _ _ hspec2.1 hspec2.2
        have hpre2 : add_messages msgs (agent_node t) <+:
            add_messages (add_messages msgs (agent_node t))
              (tool_node execTool (add_messages msgs (agent_node t))) := by
          rw [hadd2]
          exact List.prefix_append _ _
        have hchain := ih _ hf2b
        simp only [runLoop, hroute, toolsStep]
        simp only [List.chain'_cons]
        exact ⟨hpre1, hpre2, hchain⟩

/-- C4: the `add_messages` merge rule only appends when the incoming model
and tool messages carry fresh ids (never editing committed messages in
place), hence along a turn run every pair of checkpointed snapshots is in
prefix order; and the only truncation in the repository is the explicit
regenerate handler, which takes a prefix of the session history. -/
theorem c4_append_only :
    (∀ cur delta, (delta.map Message.id).Nodup →
      (∀ m ∈ delta, Message.id m ∉ cur.map Message.id) →
      add_messages cur delta = cur ++ delta) ∧
    (∀ (execTool : ToolCall → String × String) (msgs : List Message)
        (turns : List ModelTurn),
      freshRunB execTool msgs turns = true →
      List.Pairwise (fun a b => a <+: b) (msgs :: (runLoop execTool msgs turns).1)) ∧
    (∀ (history : List UiMessage) (idx : Nat), regenerate_handler history idx <+: history) := by
  refine ⟨add_messages_fresh, ?_, fun history idx => List.take_prefix idx history⟩
  intro execTool msgs turns hfresh
  haveI : IsTrans (List Message) (fun a b => a <+: b) :=
    ⟨fun _ _ _ h1 h2 => h1.trans h2⟩
  exact List.chain'_iff_pairwise.mp (runLoop_checkpoints_chain execTool turns msgs hfresh)

/-- Witness for C4 on the concrete two-turn run. -/
theorem c4_append_only_witness :
    freshRunB wExec wMsgs wTurns = true ∧
    List.Pairwise (fun a b => a <+: b) (wMsgs :: (runLoop wExec wMsgs wTurns).1) :=
  ⟨by decide, c4_append_only.2.1 wExec wMsgs wTurns (by decide)⟩

/-- Deduplicating a non-empty list whose elements are all `a` gives `[a]`. -/
theorem dedup_const (a : String) :
    ∀ xs : List String, xs ≠ [] → (∀ x ∈ xs, x = a) → xs.dedup = [a] := by
  intro xs
  induction xs with
  | nil => intro h; exact absurd rfl h
  | cons b rest ih =>
      intro _ hall
      have hb : b = a := hall b (List.mem_cons_self b rest)
      by_cases hr : rest = []
      · subst hb
        subst hr
        simp
      · have hrest : rest.dedup = [a] :=
          ih hr (fun x hx => hall x (List.mem_cons_of_mem b hx))

        have hbmem : b ∈ rest := by
          rw [hb]
          exact List.mem_dedup.mp (by rw [hrest]; exact List.mem_singleton.mpr rfl)
        rw [List.dedup_cons_of_mem hbmem, hrest]

/-- C5: `retrieve_all_threads` returns exactly the thread ids present among
the listed checkpoints, with no duplicates; on an empty store it returns
the empty collection, and after checkpoints for thread `"t1"` only, it
returns exactly `["t1"]`. -/
theorem c5_thread_enumeration :
    (∀ l : StoreListing, (retrieve_all_threads l).Nodup ∧
      ∀ t, t ∈ retrieve_all_threads l ↔ ∃ c ∈ l.yielded, c.thread_id = some t) ∧
    retrieve_all_threads ⟨[], none⟩ = [] ∧
    (∀ l : StoreListing, l.fault = none → l.yielded ≠ [] →
      (∀ c ∈ l.yielded, c.thread_id = some "t1") →
      retrieve_all_threads l = ["t1"]) := by
  refine ⟨?_, rfl, ?_⟩
  · intro l
    refine ⟨List.nodup_dedup _, ?_⟩
    intro t
    unfold retrieve_all_threads
    rw [List.mem_dedup, List.mem_filterMap]
  · intro l _ hne hall
    unfold retrieve_all_threads
    apply dedup_const
    · have hmem : "t1" ∈ l.yielded.filterMap (fun c => c.thread_id) := by
        cases hy : l.yielded with
        | nil => exact absurd hy hne
        | cons c rest =>
            have hcy : c ∈ l.yielded := by
              rw [hy]
              exact List.mem_cons_self c rest
            exact List.mem_filterMap.mpr ⟨c, List.mem_cons_self c rest, hall c hcy⟩
      exact List.ne_nil_of_mem hmem
    · intro x hx
      obtain ⟨c, hc, hcx⟩ := List.mem_filterMap.mp hx
      have h2 := hall c hc
      rw [h2] at hcx
      exact (Option.some.inj hcx).symm

/-- Witness for C5: a store holding one committed checkpoint for `"t1"`. -/
theorem c5_thread_enumeration_witness :
    retrieve_all_threads ⟨[⟨some "t1"⟩], none⟩ = ["t1"] :=
  c5_thread_enumeration.2.2 ⟨[⟨some "t1"⟩], none⟩ rfl (by decide) (by decide)

/-- C6 counterexample: a store whose enumeration fails immediately is
indistinguishable from an empty store — `retrieve_all_threads` returns a
quietly empty list and no error escapes to the caller; likewise a failed
`get_state` read makes `load_conversation` return an empty history to its
caller instead of propagating the fault.  This refutes the claim that
persistence faults always escape as explicit terminal errors. -/
theorem c6_fault_swallowed_counterexample :
    retrieve_all_threads ⟨[], some "database is locked"⟩ =
      retrieve_all_threads ⟨[], none⟩ ∧
    retrieve_all_threads ⟨[], some "database is locked"⟩ = [] ∧
    (load_conversation (Except.error "database is locked")).2 = [] ∧
    load_conversation (Except.error "database is locked") =
      (["Error loading conversation: database is locked"], []) :=
  ⟨rfl, rfl, rfl, by decide⟩

/-- C6 (amended): a persistence failure is caught, not propagated:
`retrieve_all_threads` logs it and returns the thread ids gathered before
the failure (possibly empty), and `load_conversation` shows a UI error
banner and returns an empty history.  Faults never escape to the caller. -/
theorem c6_amended_fault_handling :
    ∀ (yielded : List CheckpointRecord) (e : String),
      retrieve_all_threads ⟨yielded, some e⟩ = retrieve_all_threads ⟨yielded, none⟩ ∧
      (load_conversation (Except.error e)).1 = ["Error loading conversation: " ++ e] ∧
      (load_conversation (Except.error e)).2 = [] :=
  fun yielded e => ⟨rfl, rfl, rfl⟩

/-- C8: on any uncaught turn error, the chat-input handler still appends a
best-effort assistant message with a fixed, non-empty generic failure
text, right after the already-appended user message, so the history grows
by exactly the user and assistant entries of the turn. -/
theorem c8_failure_message :
    ∀ (history : List UiMessage) (user_input e : String),
      chat_input_handler history user_input (Except.error e) =
        history ++
          [⟨"user", user_input, [], none⟩,
           ⟨"assistant", "Sorry, I encountered an error. Please try again.", [], none⟩] ∧
      (chat_input_handler history user_input (Except.error e)).length =
        history.length + 2 ∧
      "Sorry, I encountered an error. Please try again." ≠ "" := by
  intro history user_input e
  refine ⟨?_, ?_, by decide⟩
  · simp [chat_input_handler]
  · simp [chat_input_handler]

/-- C9: for any url and any method whose upper-cased form is not `"GET"`,
`api_caller` returns exactly the fixed refusal string and performs no
outbound request (the request counter stays `0`). -/
theorem c9_api_caller_non_get :
    ∀ (url method : String) (httpGet : String → Except String (Int × String)),
      pyUpper method ≠ "GET" →
      api_caller url method httpGet =
        ("Only GET method is supported for safety reasons.", 0) := by
  intro url method g h
  unfold api_caller
  rw [if_neg h]

/-- Witness for C9 with method `"post"`. -/
theorem c9_api_caller_non_get_witness :
    pyUpper "post" ≠ "GET" ∧
    api_caller "https://api.example.com/data" "post" (fun _ => Except.ok (200, "ok")) =
      ("Only GET method is supported for safety reasons.", 0) :=
  ⟨by decide,
    c9_api_caller_non_get "https://api.example.com/data" "post"
      (fun _ => Except.ok (200, "ok")) (by decide)⟩

/-- C10: if no comma-separated item passes the numeric filter, the
`average` branch of `data_processor` returns `"Average: 0"` — the division
by the item count is guarded and the failure branch is not taken — for
every float-parsing and float-formatting oracle. -/
theorem c10_average_empty_guard :
    ∀ (pyFloat : String → Except String Rat) (floatRepr : Rat → String) (data : String),
      ((splitChar ',' data).map pyStrip).all (fun x => !numericFilter x) = true →
      data_processor pyFloat floatRepr data "average" = "Average: 0" := by
  intro pf fr data hall
  have hfilter : ((splitChar ',' data).map pyStrip).filter numericFilter = [] :=
    List.filter_eq_nil_iff.mpr
      (fun a ha => by simpa using List.all_eq_true.mp hall a ha)
  simp only [data_processor, if_true]
  rw [hfilter]
  rfl

/-- Witness for C10: no item of `"apple, banana"` passes the filter. -/
theorem c10_average_empty_guard_witness :
    ((splitChar ',' "apple, banana").map pyStrip).all (fun x => !numericFilter x) = true ∧
    data_processor (fun _ => Except.error "could not convert string to float")
      (fun _ => "0.0") "apple, banana" "average" = "Average: 0" :=
  ⟨by decide,
    c10_average_empty_guard (fun _ => Except.error "could not convert string to float")
      (fun _ => "0.0") "apple, banana" (by decide)⟩

end LangGraphChatbot
